import Mathlib

/-!
Verification of the TutorQuest tutoring backend against its specification.

The Python sources under `src/backend/src/services/` are shallowly embedded
here: text is modelled as `List Char`, bytes as `List Nat` (each `< 256`),
Python dictionaries returned to callers as Lean structures, and external
collaborators (the language model, the Daytona sandbox, the Supabase storage
and tables) as explicit oracle parameters.  Fallible Python code is embedded
as `Except`-returning functions; a bare Python value that cannot raise is a
total Lean function.
-/

namespace TutorQuest

/-! ## Shared text utilities (Python `str` operations used by the services) -/

/-- Python whitespace characters relevant to `str.strip()` on the texts at
hand (space, newline, tab, carriage return, form feed, vertical tab). -/
def isPyWs (c : Char) : Bool :=
  c = ' ' || c = '\n' || c = '\t' || c = '\r' || c = '\x0c' || c = '\x0b'

/-- Python `s.strip()`: drop leading and trailing whitespace. -/
def pyStrip (cs : List Char) : List Char :=
  ((cs.dropWhile isPyWs).reverse.dropWhile isPyWs).reverse

/-- Python `s.startswith(p)`. -/
def listStarts (p cs : List Char) : Bool :=
  cs.take p.length = p

/-- Python `s.endswith(p)`. -/
def listEnds (p cs : List Char) : Bool :=
  cs.reverse.take p.length = p.reverse

/-- The code-fence stripping performed identically in `chat.py` and
`video.py`: `if text.startswith("```json"): text = text[7:]`, then
`if text.startswith("```"): text = text[3:]`, then
`if text.endswith("```"): text = text[:-3]`. -/
def fenceStrip (cs : List Char) : List Char :=
  let t1 := if listStarts "```json".data cs then cs.drop 7 else cs
  let t2 := if listStarts "```".data t1 then t1.drop 3 else t1
  if listEnds "```".data t2 then t2.reverse.drop 3 |>.reverse else t2

/-! ## `questions.py`: difficulty derivation (`get_next_question`, lines 19-23) -/

/-- `questions.py` lines 19-23: when no difficulty is supplied it is
`min(1 + question_count // 3, 10)`; an explicit one is
`max(1, min(10, difficulty))`. -/
def deriveDifficulty : Option Int → Nat → Int
  | none, questionCount => min (1 + (questionCount : Int) / 3) 10
  | some d, _ => max 1 (min 10 d)

/-! ## `questions.py`: answer validation (`validate_user_answer`, lines 51-80) -/

/-- The structured verdict returned by the answer-validation model call
(`validation["correct"]`, `validation["feedback"]`). -/
structure Validation where
  correct : Bool
  feedback : List Char

/-- The dictionary returned by `validate_user_answer`. -/
structure AnswerResult where
  correct : Bool
  attempts : Nat
  feedback : List Char
  offerVideo : Bool
  question : List Char
  topic : List Char

/-- `questions.py` lines 51-80 (`validate_user_answer`), with the stored
question row, the model verdict and the hint-generation call (only reached
on the second attempt) supplied as oracles.  `storedAttempts` is the
persisted attempt counter before this call; the code increments it first. -/
def validate_user_answer (storedQuestion storedTopic : List Char)
    (storedAttempts : Nat) (validation : Validation) (hintOracle : List Char) :
    AnswerResult :=
  let newAttempts := storedAttempts + 1
  let feedback :=
    if validation.correct then validation.feedback
    else if newAttempts = 1 then "Incorrect. Please try again.".data
    else if newAttempts = 2 then
      "Not quite right. Here's a hint: ".data ++ hintOracle
    else "That's not correct. ".data ++ validation.feedback
  { correct := validation.correct
    attempts := newAttempts
    feedback := feedback
    offerVideo := !validation.correct && decide (3 ≤ newAttempts)
    question := storedQuestion
    topic := storedTopic }

/-! ## `video.py`: retention sweep (`cleanup_old_videos`, lines 119-128) -/

/-- One entry of `supabase.storage.from_('videos').list()`: a file name and
its creation timestamp (modelled as seconds). -/
structure StoredVideo where
  name : List Char
  createdAt : Int

/-- The dictionary returned by `cleanup_old_videos`. -/
structure CleanupResult where
  deleted : Nat
  files : List (List Char)

/-- One day in seconds (`timedelta(days=1)`). -/
def oneDay : Int := 86400

/-- `video.py` lines 119-128 (`cleanup_old_videos`): select the names of
videos created strictly before `now - 1 day`, remove them with a single
batch `remove` call when the selection is non-empty, and return the count
and names.  The first component records the `remove` calls issued. -/
def cleanup_old_videos (now : Int) (videos : List StoredVideo) :
    List (List (List Char)) × CleanupResult :=
  let cutoff := now - oneDay
  let oldVideos := (videos.filter (fun v => v.createdAt < cutoff)).map (·.name)
  let removeCalls := if oldVideos.isEmpty then [] else [oldVideos]
  (removeCalls, { deleted := oldVideos.length, files := oldVideos })

/-! ## Base64: the text-safe transport of `execute_manim_code`

`video.py` moves the rendered artifact out of the sandbox with
`cat {video_path} | base64 | tr -d '\n'` and decodes it on the orchestrator
side with `base64.b64decode` after a defensive filter.  The codec itself is
external (coreutils / Python stdlib); it is modelled here by the standard
base64 algorithm with `=` padding and 76-column line wrapping. -/

/-- The standard base64 alphabet. -/
def b64alphabet : List Char :=
  "ABCDEFGHIJKLMNOPQRSTUVWXYZabcdefghijklmnopqrstuvwxyz0123456789+/".data

/-- The base64 digit for a sextet value. -/
def b64char (i : Nat) : Char := b64alphabet.getD i 'A'

/-- The sextet value of a base64 digit, `none` for characters outside the
alphabet. -/
def b64charVal (c : Char) : Option Nat := b64alphabet.findIdx? (· = c)

/-- Standard base64 encoding of a byte sequence (without line wrapping). -/
def b64encode : List Nat → List Char
  | a :: b :: c :: rest =>
    b64char (a / 4) :: b64char (a % 4 * 16 + b / 16) ::
      b64char (b % 16 * 4 + c / 64) :: b64char (c % 64) :: b64encode rest
  | [a, b] => [b64char (a / 4), b64char (a % 4 * 16 + b / 16), b64char (b % 16 * 4), '=']
  | [a] => [b64char (a / 4), b64char (a % 4 * 16), '=', '=']
  | [] => []

/-- Base64 decoding as performed by Python's `base64.b64decode`: the input
is consumed in groups of four digits, `=` padding is honoured in the final
group, and anything else fails. -/
def b64decode : List Char → Option (List Nat)
  | [] => some []
  | a :: b :: c :: d :: rest =>
    (b64charVal a).bind fun x =>
    (b64charVal b).bind fun y =>
    if c = '=' then
      if d = '=' ∧ rest = [] then some [x * 4 + y / 16] else none
    else
      (b64charVal c).bind fun z =>
      if d = '=' then
        if rest = [] then some [x * 4 + y / 16, y % 16 * 16 + z / 4] else none
      else
        (b64charVal d).bind fun w =>
        (b64decode rest).map fun tl =>
          (x * 4 + y / 16) :: (y % 16 * 16 + z / 4) :: (z % 4 * 64 + w) :: tl
  | _ => none

/-- The line wrapping applied by the coreutils `base64` command inside the
sandbox: 76-character lines, each terminated by a newline. -/
def wrapLines (cs : List Char) : List Char :=
  if cs.length ≤ 76 then (if cs.isEmpty then [] else cs ++ ['\n'])
  else cs.take 76 ++ '\n' :: wrapLines (cs.drop 76)
termination_by cs.length
decreasing_by
  simp only [List.length_drop]
  omega

/-- The sandbox-side encoding of the artifact, `video.py` line 96:
`cat {video_path} | base64 | tr -d '\n'`. -/
def sandboxTransportEncode (bs : List Nat) : List Char :=
  (wrapLines (b64encode bs)).filter (fun c => c ≠ '\n')

/-- The defensive character filter of `video.py` line 98:
`c.isalnum() or c in '+/='`. -/
def pyIsAlnumB64 (c : Char) : Bool :=
  c.isAlphanum || c = '+' || c = '/' || c = '='

/-- The orchestrator-side decoding of the retrieved artifact, `video.py`
lines 97-100: strip, filter to the base64 alphabet, `base64.b64decode`. -/
def textTransportDecode (s : List Char) : Option (List Nat) :=
  b64decode ((pyStrip s).filter pyIsAlnumB64)

/-! ## `video.py`: sandbox execution (`execute_manim_code`, lines 70-104) -/

/-- The outputs of the four `sandbox.process.exec` calls issued by
`execute_manim_code`, supplied as an oracle: the write, verify, render,
and find commands plus the artifact retrieval. -/
structure SandboxRun where
  verifyOut : List Char
  renderOut : List Char
  findOut : List Char
  catOut : List Char

/-- `video.py` lines 70-104 (`execute_manim_code`).  The first component is
the stage outcome (the raised exception message or the artifact bytes and
render log); the second counts the `sandbox.delete()` calls performed on
that path.  The source calls `sandbox.delete()` only at line 102, after the
output-file check at line 93 and the `base64.b64decode` at line 100, so the
two failure paths perform no deletion. -/
def execute_manim_code (sb : SandboxRun) (manimCode : List Char) :
    Except (List Char) (List Nat × List Char) × Nat :=
  let codeSafe := manimCode.filter (fun c => c.toNat < 128)
  let _codeB64 := b64encode (codeSafe.map Char.toNat)
  let videoPath := pyStrip sb.findOut
  if videoPath.isEmpty then
    (.error ("Video not found. Code verify: ".data ++ sb.verifyOut.take 200 ++
      ". Render: ".data ++ sb.renderOut.take 1000), 0)
  else
    let cleanB64 := (pyStrip sb.catOut).filter pyIsAlnumB64
    match b64decode cleanB64 with
    | none => (.error "binascii.Error: Invalid base64-encoded string".data, 0)
    | some videoBytes => (.ok (videoBytes, sb.renderOut), 1)

/-! ## `video.py`: upload and top-level pipeline (lines 106-150) -/

/-- The externally observable outcome of one pipeline run, the dictionary
returned by `generate_video`. -/
structure VideoResult where
  videoId : List Char
  status : List Char
  videoUrl : Option (List Char)
  error : Option (List Char)

/-- The `except` branch of `generate_video`, lines 144-150. -/
def failedResult (videoId e : List Char) : VideoResult :=
  { videoId := videoId, status := "failed".data, videoUrl := none, error := some e }

/-- `video.py` lines 66-68 (`get_or_generate_code`): stage 1 then stage 2,
each supplied as an oracle for the model call it wraps. -/
def get_or_generate_code (explainRes : Except (List Char) (List Char))
    (codegenRes : List Char → Except (List Char) (List Char)) :
    Except (List Char) (List Char) :=
  explainRes.bind codegenRes

/-- `video.py` lines 106-117 (`upload_to_supabase`): builds the storage
path `f"{video_id}.mp4"` and issues the upload / public-url calls (the
`storage` oracle).  The second component records the storage call made. -/
def upload_to_supabase (storage : List Char → List Nat → Except (List Char) (List Char))
    (videoBytes : List Nat) (videoId : List Char) :
    Except (List Char) (List Char) × List (List Char × List Nat) :=
  let filePath := videoId ++ ".mp4".data
  (storage filePath videoBytes, [(filePath, videoBytes)])

/-- `video.py` lines 130-150 (`generate_video`): draw a fresh id, run the
four stages inside `try`, and convert any raised failure into a
`failed` result.  `videoId` is the `uuid.uuid4()` draw; the stage oracles
may fail with an exception message.  The Python `except Exception` makes
the function total, which the embedding reflects by returning a
`VideoResult` unconditionally; the second component is the list of storage
upload calls made. -/
def generate_video (videoId : List Char)
    (explainRes : Except (List Char) (List Char))
    (codegenRes : List Char → Except (List Char) (List Char))
    (execRes : List Char → Except (List Char) (List Nat × List Char))
    (storage : List Char → List Nat → Except (List Char) (List Char)) :
    VideoResult × List (List Char × List Nat) :=
  match get_or_generate_code explainRes codegenRes with
  | .error e => (failedResult videoId e, [])
  | .ok manimCode =>
    match execRes manimCode with
    | .error e => (failedResult videoId e, [])
    | .ok (videoBytes, _renderLog) =>
      match upload_to_supabase storage videoBytes videoId with
      | (.error e, calls) => (failedResult videoId e, calls)
      | (.ok url, calls) =>
        ({ videoId := videoId, status := "completed".data,
           videoUrl := some url, error := none }, calls)

/-! ## JSON: the structured-output model

`chat.py` and `video.py` recover structured values with Python's
`json.loads`.  The stdlib parser is external code; it is modelled here by a
parser for the JSON grammar (strict mode: no unescaped control characters
in strings, no leading zeros, full-input consumption up to trailing
whitespace; Python's nonstandard `NaN`/`Infinity` constants are not
modelled).  Numbers keep their lexeme components rather than becoming
floats. -/

/-- A JSON value.  Numbers are kept symbolically: sign, integer digits,
fraction digits, optional exponent. -/
inductive Json where
  | null : Json
  | bool (b : Bool) : Json
  | num (neg : Bool) (intDigits fracDigits : List Nat) (expo : Option Int) : Json
  | str (s : List Char) : Json
  | arr (elems : List Json) : Json
  | obj (members : List (List Char × Json)) : Json

/-- JSON insignificant whitespace. -/
def isJsonWs (c : Char) : Bool :=
  c = ' ' || c = '\t' || c = '\n' || c = '\r'

def skipWs (cs : List Char) : List Char := cs.dropWhile isJsonWs

/-- ASCII decimal digit. -/
def isDigitCh (c : Char) : Bool := 48 ≤ c.toNat && c.toNat ≤ 57

/-- ASCII hexadecimal digit. -/
def isHexCh (c : Char) : Bool :=
  isDigitCh c || (97 ≤ c.toNat && c.toNat ≤ 102) || (65 ≤ c.toNat && c.toNat ≤ 70)

def hexVal (c : Char) : Nat :=
  if c.toNat ≤ 57 then c.toNat - 48
  else if 97 ≤ c.toNat then c.toNat - 87
  else c.toNat - 55

/-- The single-character string escapes of JSON. -/
def escChar : Char → Option Char
  | '"' => some '"'
  | '\\' => some '\\'
  | '/' => some '/'
  | 'b' => some '\x08'
  | 'f' => some '\x0c'
  | 'n' => some '\n'
  | 'r' => some '\r'
  | 't' => some '\t'
  | _ => none

/-- Parse the body of a JSON string after its opening quote; returns the
decoded characters and the remaining input after the closing quote. -/
def parseStrBody : List Char → Option (List Char × List Char)
  | [] => none
  | '"' :: rest => some ([], rest)
  | '\\' :: 'u' :: h1 :: h2 :: h3 :: h4 :: rest =>
    if isHexCh h1 && isHexCh h2 && isHexCh h3 && isHexCh h4 then
      (parseStrBody rest).map fun (s, r) =>
        (Char.ofNat (hexVal h1 * 4096 + hexVal h2 * 256 + hexVal h3 * 16 + hexVal h4) :: s, r)
    else none
  | '\\' :: e :: rest =>
    match escChar e with
    | some c => (parseStrBody rest).map fun (s, r) => (c :: s, r)
    | none => none
  | c :: rest =>
    if c.toNat < 32 then none
    else (parseStrBody rest).map fun (s, r) => (c :: s, r)

def digitVal (c : Char) : Nat := c.toNat - 48

/-- Consume a maximal run of decimal digits. -/
def takeDigits : List Char → List Nat × List Char
  | [] => ([], [])
  | c :: rest =>
    if isDigitCh c then
      let (ds, r) := takeDigits rest
      (digitVal c :: ds, r)
    else ([], c :: rest)

/-- Parse an optional fraction part (a `'.'` must be followed by digits). -/
def parseFrac : List Char → Option (List Nat × List Char)
  | '.' :: r =>
    let (fp, r2) := takeDigits r
    if fp.isEmpty then none else some (fp, r2)
  | cs => some ([], cs)

/-- Parse an optional exponent part. -/
def parseExp (cs : List Char) : Option (Option Int × List Char) :=
  match cs with
  | c :: r =>
    if c = 'e' ∨ c = 'E' then
      let (esign, r2) : Int × List Char :=
        match r with
        | '+' :: rr => (1, rr)
        | '-' :: rr => (-1, rr)
        | _ => (1, r)
      let (eds, r3) := takeDigits r2
      if eds.isEmpty then none
      else some (some (esign * eds.foldl (fun a d => a * 10 + (d : Int)) 0), r3)
    else some (none, cs)
  | [] => some (none, [])

/-- Parse a JSON number (no leading zeros, per the grammar). -/
def parseNum (cs : List Char) : Option (Json × List Char) :=
  let (neg, cs1) : Bool × List Char :=
    match cs with
    | '-' :: r => (true, r)
    | _ => (false, cs)
  let (ip, cs2) := takeDigits cs1
  if ip.isEmpty then none
  else if 2 ≤ ip.length ∧ ip.headD 1 = 0 then none
  else
    (parseFrac cs2).bind fun (fp, cs3) =>
    (parseExp cs3).map fun (expo, cs4) =>
    (Json.num neg ip fp expo, cs4)

mutual

/-- Parse one JSON value (fuel-bounded recursive-descent, modelling
`json.loads`'s scanner); returns the value and the remaining input. -/
def parseVal : Nat → List Char → Option (Json × List Char)
  | 0, _ => none
  | fuel + 1, cs =>
    match skipWs cs with
    | [] => none
    | c :: rest =>
      if c = '{' then
        match skipWs rest with
        | '}' :: r2 => some (Json.obj [], r2)
        | _ => (parseMembers fuel rest).map fun (kvs, r) => (Json.obj kvs, r)
      else if c = '[' then
        match skipWs rest with
        | ']' :: r2 => some (Json.arr [], r2)
        | _ => (parseElems fuel rest).map fun (xs, r) => (Json.arr xs, r)
      else if c = '"' then
        (parseStrBody rest).map fun (s, r) => (Json.str s, r)
      else if c = 't' then
        if listStarts "rue".data rest then some (Json.bool true, rest.drop 3) else none
      else if c = 'f' then
        if listStarts "alse".data rest then some (Json.bool false, rest.drop 4) else none
      else if c = 'n' then
        if listStarts "ull".data rest then some (Json.null, rest.drop 3) else none
      else if c = '-' then parseNum (c :: rest)
      else if isDigitCh c then parseNum (c :: rest)
      else none

/-- Parse the members of a JSON object after its opening brace (at least
one member; the empty object is handled in `parseVal`). -/
def parseMembers : Nat → List Char → Option (List (List Char × Json) × List Char)
  | 0, _ => none
  | fuel + 1, cs =>
    match skipWs cs with
    | '"' :: rest =>
      (parseStrBody rest).bind fun (key, r1) =>
      (match skipWs r1 with
       | ':' :: r2 =>
         (parseVal fuel r2).bind fun (v, r3) =>
         (match skipWs r3 with
          | ',' :: r4 => (parseMembers fuel r4).map fun (kvs, r5) => ((key, v) :: kvs, r5)
          | '}' :: r4 => some ([(key, v)], r4)
          | _ => none)
       | _ => none)
    | _ => none

/-- Parse the elements of a JSON array after its opening bracket (at least
one element; the empty array is handled in `parseVal`). -/
def parseElems : Nat → List Char → Option (List Json × List Char)
  | 0, _ => none
  | fuel + 1, cs =>
    (parseVal fuel cs).bind fun (v, r1) =>
    match skipWs r1 with
    | ',' :: r2 => (parseElems fuel r2).map fun (xs, r3) => (v :: xs, r3)
    | ']' :: r2 => some ([v], r2)
    | _ => none

end

/-- Modelled from the Python stdlib: `json.loads` — parse one JSON value
and require only whitespace after it. -/
def jsonParse (cs : List Char) : Option Json :=
  match parseVal (cs.length + 1) cs with
  | some (v, rest) => if (skipWs rest).isEmpty then some v else none
  | none => none

/-! ## `chat.py`: the structured-output recovery block

`generate_next_question` (lines 34-72) and `validate_answer`
(lines 89-127) contain the identical parsing block: strip, fence-strip,
strip, direct `json.loads`, then on failure the line-suffix loop, then the
brace-matching loop, then `raise e`. -/

/-- The preparation applied before the first parse attempt in every
structured call site: `text.strip()`, fence stripping, `strip()` again. -/
def prepText (raw : List Char) : List Char := pyStrip (fenceStrip (pyStrip raw))

/-- Python `text.split('\n')`. -/
def splitNl : List Char → List (List Char)
  | [] => [[]]
  | c :: rest =>
    if c = '\n' then [] :: splitNl rest
    else
      match splitNl rest with
      | l :: ls => (c :: l) :: ls
      | [] => [[c]]

/-- Python `'\n'.join(lines)`. -/
def joinNl : List (List Char) → List Char
  | [] => []
  | [l] => l
  | l :: l2 :: ls => l ++ '\n' :: joinNl (l2 :: ls)

/-- The line-suffix loop of `chat.py` lines 48-56: for each `i`, try to
parse `'\n'.join(lines[i:])`, returning the first success. -/
def suffixScan : List (List Char) → Option Json
  | [] => none
  | l :: rest =>
    match jsonParse (joinNl (l :: rest)) with
    | some v => some v
    | none => suffixScan rest

/-- The brace-count update of `chat.py` lines 63-66. -/
def braceStep (d : Int) (c : Char) : Int :=
  if c = '{' then d + 1 else if c = '}' then d - 1 else d

/-- The brace-matching loop of `chat.py` lines 61-71: scan forward from the
first brace accumulating `pre = text[start_idx:i]`; whenever a `'}'`
returns the count to zero, try to parse `text[start_idx:i+1]`, on failure
(`pass`) keep scanning. -/
def braceLoop : List Char → List Char → Int → Option Json
  | _, [], _ => none
  | pre, c :: rest, depth =>
    let depth' := braceStep depth c
    if c = '}' ∧ depth' = 0 then
      match jsonParse (pre ++ [c]) with
      | some v => some v
      | none => braceLoop (pre ++ [c]) rest depth'
    else braceLoop (pre ++ [c]) rest depth'

/-- `chat.py` lines 58-71: `text.find('{')`, and if found, the brace loop
over the rest of the text. -/
def braceExtract (text : List Char) : Option Json :=
  let fromBrace := text.dropWhile (fun c => c ≠ '{')
  if fromBrace.isEmpty then none else braceLoop [] fromBrace 0

/-- `fold` of `braceStep` over a segment: the brace count after scanning
it. -/
def scanDepth (d : Int) (cs : List Char) : Int := cs.foldl braceStep d

/-- Whether scanning a segment from count `d` ever hits a `'}'` that
brings the count to zero (the brace loop's parse-attempt trigger). -/
def hasZeroClose (d : Int) : List Char → Bool
  | [] => false
  | c :: rest =>
    let d' := braceStep d c
    (decide (c = '}') && decide (d' = 0)) || hasZeroClose d' rest

/-- The multi-strategy structured-output parsing block as it appears in
`generate_next_question`, `chat.py` lines 34-72: prepare the text, attempt
a direct parse, then the line-suffix loop, then the brace loop, and
otherwise re-raise the original `JSONDecodeError` (modelled as an error
carrying the offending prepared text). -/
def pyParse (raw : List Char) : Except (List Char) Json :=
  let text := prepText raw
  match jsonParse text with
  | some v => .ok v
  | none =>
    match suffixScan (splitNl text) with
    | some v => .ok v
    | none =>
      match braceExtract text with
      | some v => .ok v
      | none => .error text

/-- The same parsing block as it appears verbatim in `validate_answer`,
`chat.py` lines 89-127. -/
def validateAnswerParse (raw : List Char) : Except (List Char) Json :=
  let text := prepText raw
  match jsonParse text with
  | some v => .ok v
  | none =>
    match suffixScan (splitNl text) with
    | some v => .ok v
    | none =>
      match braceExtract text with
      | some v => .ok v
      | none => .error text

/-- Python dictionary lookup for the dict built by `json.loads`: with
duplicate keys the last occurrence wins. -/
def pyLookup (kvs : List (List Char × Json)) (k : List Char) : Option Json :=
  match kvs with
  | [] => none
  | (k', v) :: rest =>
    match pyLookup rest k with
    | some v' => some v'
    | none => if k' = k then some v else none

/-- The parsing performed by `generate_explanation`, `video.py`
lines 36-45: strip, fence-strip, strip, a single direct `json.loads`, then
`result["explanation"]`.  Any failure (parse error, non-dict result, or
missing key) raises, with no recovery strategies. -/
def explainParse (raw : List Char) : Except Unit Json :=
  match jsonParse (prepText raw) with
  | some (Json.obj kvs) =>
    match pyLookup kvs "explanation".data with
    | some v => .ok v
    | none => .error ()
  | some _ => .error ()
  | none => .error ()

/-- The fixed fallback hint of `generate_hint`, `chat.py` lines 152-154. -/
def hintDefault : List Char :=
  "Try breaking down the problem into smaller steps.".data

/-- The parsing performed by `generate_hint`, `chat.py` lines 141-154:
strip, fence-strip, strip, a single direct `json.loads`, then
`result.get("hint", default)` — any failure or missing key yields the
fixed default, with no recovery strategies. -/
def hintParse (raw : List Char) : Json :=
  match jsonParse (prepText raw) with
  | some (Json.obj kvs) => (pyLookup kvs "hint".data).getD (Json.str hintDefault)
  | _ => Json.str hintDefault

/-! ## `questions.py` / `chat.py`: question generation (`get_next_question`) -/

/-- The structured value recovered from the question-generation model call:
`question_data["question"]` (required) and `question_data.get("topic", topic)`
(optional). -/
structure GeneratedQuestion where
  question : List Char
  topic : Option (List Char)

/-- The row inserted into the `questions` table by `questions.py`
lines 33-42. -/
structure InsertedQuestion where
  id : List Char
  sessionId : List Char
  userId : List Char
  question : List Char
  topic : List Char
  difficulty : Int
  attempts : Nat

/-- The dictionary returned by `get_next_question`, lines 44-49. -/
structure NextQuestionResponse where
  questionId : List Char
  question : List Char
  topic : List Char
  difficulty : Int

/-- `chat.py` line 23: the question-generation prompt receives
`previous_questions[:5]` — the first up to five entries of the list it is
handed — as anti-repetition context. -/
def promptContext (previousQuestions : List (List Char)) : List (List Char) :=
  previousQuestions.take 5

/-- Modelled from the spec: "the session's prior question texts (most
recent up to 5)" — for a store that lists a session's questions in
insertion order (oldest first), these are the last up to `n` entries.
Stated for comparison with `promptContext`, the slice the code takes. -/
def mostRecentUpTo (n : Nat) (qs : List (List Char)) : List (List Char) :=
  qs.drop (qs.length - n)

/-- `questions.py` lines 13-49 (`get_next_question`): derive the
difficulty, hand the session's stored question texts to
`generate_next_question` (which slices them with `promptContext`), and
persist the generated question under the fresh `uuid.uuid4()` identifier
`freshId` with an attempts counter of zero.  Returns the context passed to
the model call, the inserted row, and the response dictionary.  The stored
questions arrive in the order the unordered `select` returns them
(insertion order for the backing store). -/
def get_next_question (freshId sessionId userId : List Char)
    (storedQuestions : List (List Char)) (explicitDifficulty : Option Int)
    (gen : GeneratedQuestion) :
    List (List Char) × InsertedQuestion × NextQuestionResponse :=
  let difficulty := deriveDifficulty explicitDifficulty storedQuestions.length
  let defaultTopic := "Long Division".data
  let contextUsed := promptContext storedQuestions
  let inserted : InsertedQuestion :=
    { id := freshId, sessionId := sessionId, userId := userId
      question := gen.question, topic := gen.topic.getD defaultTopic
      difficulty := difficulty, attempts := 0 }
  (contextUsed,
   inserted,
   { questionId := freshId, question := gen.question
     topic := gen.topic.getD defaultTopic, difficulty := difficulty })

end TutorQuest

namespace TutorQuest

/-! ## Base64 round-trip lemmas -/

theorem b64charVal_b64char : ∀ k, k < 64 → b64charVal (b64char k) = some k := by decide

theorem alphabet_facts :
    ∀ c ∈ b64alphabet, c ≠ '\n' ∧ isPyWs c = false ∧ pyIsAlnumB64 c = true := by decide

theorem b64char_mem (k : Nat) : b64char k ∈ b64alphabet := by
  unfold b64char
  rcases Nat.lt_or_ge k b64alphabet.length with h | h
  · rw [List.getD_eq_getElem _ _ h]
    exact List.getElem_mem h
  · rw [List.getD_eq_default _ _ h]
    decide

theorem pad_not_mem_alphabet : ∀ c ∈ b64alphabet, c ≠ '=' := by decide

theorem b64char_ne_pad (k : Nat) : b64char k ≠ '=' :=
  pad_not_mem_alphabet _ (b64char_mem k)

theorem mem_b64encode : ∀ (bs : List Nat), ∀ c ∈ b64encode bs, c ∈ b64alphabet ∨ c = '='
  | [] => by simp [b64encode]
  | [a] => by
    simp only [b64encode, List.mem_cons, List.mem_singleton]
    rintro c (rfl | rfl | rfl | rfl | h)
    · exact Or.inl (b64char_mem _)
    · exact Or.inl (b64char_mem _)
    · exact Or.inr rfl
    · exact Or.inr rfl
    · cases h
  | [a, b] => by
    simp only [b64encode, List.mem_cons, List.mem_singleton]
    rintro c (rfl | rfl | rfl | rfl | h)
    · exact Or.inl (b64char_mem _)
    · exact Or.inl (b64char_mem _)
    · exact Or.inl (b64char_mem _)
    · exact Or.inr rfl
    · cases h
  | a :: b :: c :: rest => by
    simp only [b64encode, List.mem_cons]
    rintro d (rfl | rfl | rfl | rfl | h)
    · exact Or.inl (b64char_mem _)
    · exact Or.inl (b64char_mem _)
    · exact Or.inl (b64char_mem _)
    · exact Or.inl (b64char_mem _)
    · exact mem_b64encode rest d h

theorem b64decode_b64encode : ∀ (bs : List Nat), (∀ b ∈ bs, b < 256) →
    b64decode (b64encode bs) = some bs
  | [] => fun _ => rfl
  | [a] => fun h => by
    have ha : a < 256 := h a (by simp)
    simp only [b64encode, b64decode]
    rw [b64charVal_b64char _ (by omega), b64charVal_b64char _ (by omega)]
    simp
    omega
  | [a, b] => fun h => by
    have ha : a < 256 := h a (by simp)
    have hb : b < 256 := h b (by simp)
    simp only [b64encode, b64decode]
    rw [b64charVal_b64char _ (by omega), b64charVal_b64char _ (by omega),
      b64charVal_b64char _ (by omega)]
    simp [b64char_ne_pad]
    omega
  | a :: b :: c :: rest => fun h => by
    have ha : a < 256 := h a (by simp)
    have hb : b < 256 := h b (by simp)
    have hc : c < 256 := h c (by simp)
    have ih := b64decode_b64encode rest (fun x hx => h x (by simp [hx]))
    simp only [b64encode, b64decode]
    rw [b64charVal_b64char _ (by omega), b64charVal_b64char _ (by omega),
      b64charVal_b64char _ (by omega), b64charVal_b64char _ (by omega)]
    simp [b64char_ne_pad, ih]
    omega

theorem dropWhile_eq_self_of_all (p : Char → Bool) (cs : List Char)
    (h : ∀ c ∈ cs, p c = false) : cs.dropWhile p = cs := by
  cases cs with
  | nil => rfl
  | cons c t => rw [List.dropWhile_cons, h c (by simp)]; simp

theorem pyStrip_eq_self_of (cs : List Char) (h : ∀ c ∈ cs, isPyWs c = false) :
    pyStrip cs = cs := by
  unfold pyStrip
  rw [dropWhile_eq_self_of_all _ _ h,
    dropWhile_eq_self_of_all _ _ (fun c hc => h c (List.mem_reverse.mp hc)),
    List.reverse_reverse]

theorem filter_wrapLines (cs : List Char) :
    (wrapLines cs).filter (fun c => c ≠ '\n') = cs.filter (fun c => c ≠ '\n') := by
  have hnl : (['\n'] : List Char).filter (fun c => c ≠ '\n') = [] := rfl
  by_cases hlen : cs.length ≤ 76
  · rw [wrapLines, if_pos hlen]
    by_cases he : cs.isEmpty
    · rw [if_pos he]
      rw [List.isEmpty_iff] at he
      simp [he]
    · rw [if_neg he, List.filter_append, hnl, List.append_nil]
  · rw [wrapLines, if_neg hlen]
    have ih := filter_wrapLines (cs.drop 76)
    have hsplit : cs.take 76 ++ '\n' :: wrapLines (cs.drop 76) =
        (cs.take 76 ++ ['\n']) ++ wrapLines (cs.drop 76) := by simp
    rw [hsplit, List.filter_append, List.filter_append, hnl, List.append_nil, ih,
      ← List.filter_append, List.take_append_drop]
termination_by cs.length
decreasing_by
  simp only [List.length_drop]
  omega

/-- C5: decoding the text-safe encoding of any byte sequence — base64 in the
sandbox with line wrapping, newline stripping via `tr`, the defensive
alphabet filter and `base64.b64decode` on the orchestrator side — yields
exactly the original bytes. -/
theorem encoding_round_trip (bs : List Nat) (h : ∀ b ∈ bs, b < 256) :
    textTransportDecode (sandboxTransportEncode bs) = some bs := by
  have hmem : ∀ c ∈ b64encode bs, c ∈ b64alphabet ∨ c = '=' := mem_b64encode bs
  have hfacts : ∀ c ∈ b64encode bs, c ≠ '\n' ∧ isPyWs c = false ∧ pyIsAlnumB64 c = true := by
    intro c hcmem
    rcases hmem c hcmem with hin | rfl
    · exact alphabet_facts c hin
    · exact ⟨by decide, by decide, by decide⟩
  have h1 : (b64encode bs).filter (fun c => c ≠ '\n') = b64encode bs :=
    List.filter_eq_self.mpr (fun c hcm => by simp [(hfacts c hcm).1])
  have h2 : pyStrip (b64encode bs) = b64encode bs :=
    pyStrip_eq_self_of _ (fun c hcm => (hfacts c hcm).2.1)
  have h3 : (b64encode bs).filter pyIsAlnumB64 = b64encode bs :=
    List.filter_eq_self.mpr (fun c hcm => (hfacts c hcm).2.2)
  unfold sandboxTransportEncode textTransportDecode
  rw [filter_wrapLines, h1, h2, h3]
  exact b64decode_b64encode bs h

/-- Witness for `encoding_round_trip` at a concrete byte sequence whose
length exercises the `=`-padded final group. -/
theorem encoding_round_trip_witness :
    textTransportDecode (sandboxTransportEncode [0, 255, 77, 1]) = some [0, 255, 77, 1] :=
  encoding_round_trip [0, 255, 77, 1] (by decide)

/-- C1 (code bug): `execute_manim_code` deletes the sandbox only on the
fully successful path.  When the output-file search comes back empty the
`RenderFailed` exception is raised at line 94 before the `sandbox.delete()`
at line 102, so no deletion happens (count 0, not 1); likewise when
decoding the retrieved artifact fails at line 100.  On success the sandbox
is deleted exactly once. -/
theorem sandbox_deletion_skipped_on_failure :
    ((execute_manim_code ⟨"7 scene.py".data, "Traceback".data, [], "QUJD".data⟩
        "code".data).2 = 0 ∧
      (execute_manim_code ⟨"7 scene.py".data, "Traceback".data, [], "QUJD".data⟩
        "code".data).1 =
        .error ("Video not found. Code verify: ".data ++ "7 scene.py".data ++
          ". Render: ".data ++ "Traceback".data)) ∧
    ((execute_manim_code ⟨"7 scene.py".data, "ok".data,
        "media/videos/scene/480p15/ExplanationScene.mp4".data, "QUJ".data⟩
        "code".data).2 = 0 ∧
      (execute_manim_code ⟨"7 scene.py".data, "ok".data,
        "media/videos/scene/480p15/ExplanationScene.mp4".data, "QUJ".data⟩
        "code".data).1 =
        .error "binascii.Error: Invalid base64-encoded string".data) ∧
    (execute_manim_code ⟨"7 scene.py".data, "ok".data,
      "media/videos/scene/480p15/ExplanationScene.mp4".data, "QUJD".data⟩
      "code".data) = (.ok ([65, 66, 67], "ok".data), 1) := by
  refine ⟨⟨rfl, rfl⟩, ⟨rfl, rfl⟩, rfl⟩

/-- `generate_video` reaches exactly one of three outcomes: a failure
before any upload, a failure at the upload call, or a completed result —
in each case carrying the pre-drawn id and, once the publish stage is
reached, exactly one storage call under `f"{video_id}.mp4"`. -/
theorem generate_video_cases (videoId : List Char)
    (explainRes : Except (List Char) (List Char))
    (codegenRes : List Char → Except (List Char) (List Char))
    (execRes : List Char → Except (List Char) (List Nat × List Char))
    (storage : List Char → List Nat → Except (List Char) (List Char)) :
    (∃ e, generate_video videoId explainRes codegenRes execRes storage =
      (failedResult videoId e, [])) ∨
    (∃ e bytes, generate_video videoId explainRes codegenRes execRes storage =
      (failedResult videoId e, [(videoId ++ ".mp4".data, bytes)])) ∨
    (∃ u bytes, generate_video videoId explainRes codegenRes execRes storage =
      ({ videoId := videoId, status := "completed".data,
         videoUrl := some u, error := none }, [(videoId ++ ".mp4".data, bytes)])) := by
  rcases hg : get_or_generate_code explainRes codegenRes with e | code
  · exact Or.inl ⟨e, by simp [generate_video, hg]⟩
  · rcases he : execRes code with e | ⟨bytes, log⟩
    · exact Or.inl ⟨e, by simp [generate_video, hg, he]⟩
    · rcases hs : storage (videoId ++ ".mp4".data) bytes with e | url
      · exact Or.inr (Or.inl ⟨e, bytes,
          by simp [generate_video, hg, he, upload_to_supabase, hs]⟩)
      · exact Or.inr (Or.inr ⟨url, bytes,
          by simp [generate_video, hg, he, upload_to_supabase, hs]⟩)

/-- C2: `generate_video` always returns a result value (the embedding is
total, reflecting the `except Exception` handler): its status is
`completed` or `failed`; status `completed` holds exactly when a video URL
is present and the error is null; status `failed` holds exactly when the
URL is null and an error message is present; when all four stages succeed
the result is completed with the obtained URL, and a failure in any of the
four stages — explanation, code generation, execution, or upload — yields a
failed result carrying that stage's message. -/
theorem video_pipeline_result_contract (videoId : List Char)
    (explainRes : Except (List Char) (List Char))
    (codegenRes : List Char → Except (List Char) (List Char))
    (execRes : List Char → Except (List Char) (List Nat × List Char))
    (storage : List Char → List Nat → Except (List Char) (List Char)) :
    ((generate_video videoId explainRes codegenRes execRes storage).1.status = "completed".data ∨
     (generate_video videoId explainRes codegenRes execRes storage).1.status = "failed".data) ∧
    ((generate_video videoId explainRes codegenRes execRes storage).1.status = "completed".data ↔
      (∃ u, (generate_video videoId explainRes codegenRes execRes storage).1.videoUrl = some u) ∧
      (generate_video videoId explainRes codegenRes execRes storage).1.error = none) ∧
    ((generate_video videoId explainRes codegenRes execRes storage).1.status = "failed".data ↔
      (generate_video videoId explainRes codegenRes execRes storage).1.videoUrl = none ∧
      ∃ e, (generate_video videoId explainRes codegenRes execRes storage).1.error = some e) ∧
    (∀ ex code bytes log url, explainRes = .ok ex → codegenRes ex = .ok code →
      execRes code = .ok (bytes, log) →
      storage (videoId ++ ".mp4".data) bytes = .ok url →
      (generate_video videoId explainRes codegenRes execRes storage).1 =
        { videoId := videoId, status := "completed".data,
          videoUrl := some url, error := none }) ∧
    (∀ e, explainRes = .error e →
      (generate_video videoId explainRes codegenRes execRes storage).1 =
        failedResult videoId e) ∧
    (∀ ex e, explainRes = .ok ex → codegenRes ex = .error e →
      (generate_video videoId explainRes codegenRes execRes storage).1 =
        failedResult videoId e) ∧
    (∀ ex code e, explainRes = .ok ex → codegenRes ex = .ok code →
      execRes code = .error e →
      (generate_video videoId explainRes codegenRes execRes storage).1 =
        failedResult videoId e) ∧
    (∀ ex code bytes log e, explainRes = .ok ex → codegenRes ex = .ok code →
      execRes code = .ok (bytes, log) →
      storage (videoId ++ ".mp4".data) bytes = .error e →
      (generate_video videoId explainRes codegenRes execRes storage).1 =
        failedResult videoId e) := by
  have hfc : ("failed".data = "completed".data) = False := by simp
  have hcf : ("completed".data = "failed".data) = False := by simp
  refine ⟨?_, ?_, ?_, ?_, ?_, ?_, ?_, ?_⟩
  · rcases generate_video_cases videoId explainRes codegenRes execRes storage with
      ⟨e, hr⟩ | ⟨e, b, hr⟩ | ⟨u, b, hr⟩ <;> rw [hr] <;> simp [failedResult]
  · rcases generate_video_cases videoId explainRes codegenRes execRes storage with
      ⟨e, hr⟩ | ⟨e, b, hr⟩ | ⟨u, b, hr⟩ <;> rw [hr] <;>
      simp [failedResult, hfc, hcf]
  · rcases generate_video_cases videoId explainRes codegenRes execRes storage with
      ⟨e, hr⟩ | ⟨e, b, hr⟩ | ⟨u, b, hr⟩ <;> rw [hr] <;>
      simp [failedResult, hfc, hcf]
  · intro ex code bytes log url h1 h2 h3 h4
    simp [generate_video, get_or_generate_code, Except.bind, h1, h2, h3,
      upload_to_supabase, h4]
  · intro e h1
    simp [generate_video, get_or_generate_code, Except.bind, h1, failedResult]
  · intro ex e h1 h2
    simp [generate_video, get_or_generate_code, Except.bind, h1, h2, failedResult]
  · intro ex code e h1 h2 h3
    simp [generate_video, get_or_generate_code, Except.bind, h1, h2, h3, failedResult]
  · intro ex code bytes log e h1 h2 h3 h4
    simp [generate_video, get_or_generate_code, Except.bind, h1, h2, h3,
      upload_to_supabase, h4, failedResult]

/-- Witness for `video_pipeline_result_contract`: with stage oracles that
all succeed the result is completed with the storage URL; with a failing
explanation, execution, or upload stage the result is failed and carries
that stage's message. -/
theorem video_pipeline_result_contract_witness :
    (generate_video "vid".data (.ok "exp".data) (fun _ => .ok "code".data)
        (fun _ => .ok ([1, 2], "log".data))
        (fun p _ => .ok ("https://cdn/".data ++ p))).1 =
      { videoId := "vid".data, status := "completed".data,
        videoUrl := some ("https://cdn/".data ++ "vid".data ++ ".mp4".data),
        error := none } ∧
    (generate_video "vid".data (.error "boom".data) (fun _ => .ok "code".data)
        (fun _ => .ok ([1, 2], "log".data))
        (fun p _ => .ok ("https://cdn/".data ++ p))).1 =
      failedResult "vid".data "boom".data ∧
    (generate_video "vid".data (.ok "exp".data) (fun _ => .ok "code".data)
        (fun _ => .error "Video not found".data)
        (fun p _ => .ok ("https://cdn/".data ++ p))).1 =
      failedResult "vid".data "Video not found".data ∧
    (generate_video "vid".data (.ok "exp".data) (fun _ => .ok "code".data)
        (fun _ => .ok ([1, 2], "log".data))
        (fun _ _ => .error "storage down".data)).1 =
      failedResult "vid".data "storage down".data :=
  ⟨(video_pipeline_result_contract "vid".data (.ok "exp".data) (fun _ => .ok "code".data)
      (fun _ => .ok ([1, 2], "log".data))
      (fun p _ => .ok ("https://cdn/".data ++ p))).2.2.2.1
      "exp".data "code".data [1, 2] "log".data ("https://cdn/".data ++ "vid".data ++ ".mp4".data)
      rfl rfl rfl rfl,
   (video_pipeline_result_contract "vid".data (.error "boom".data) (fun _ => .ok "code".data)
      (fun _ => .ok ([1, 2], "log".data))
      (fun p _ => .ok ("https://cdn/".data ++ p))).2.2.2.2.1
      "boom".data rfl,
   (video_pipeline_result_contract "vid".data (.ok "exp".data) (fun _ => .ok "code".data)
      (fun _ => .error "Video not found".data)
      (fun p _ => .ok ("https://cdn/".data ++ p))).2.2.2.2.2.2.1
      "exp".data "code".data "Video not found".data rfl rfl rfl,
   (video_pipeline_result_contract "vid".data (.ok "exp".data) (fun _ => .ok "code".data)
      (fun _ => .ok ([1, 2], "log".data))
      (fun _ _ => .error "storage down".data)).2.2.2.2.2.2.2
      "exp".data "code".data [1, 2] "log".data "storage down".data rfl rfl rfl rfl⟩

/-- C10: every `generate_video` run carries the pre-drawn fresh id in its
result, in the failed case as much as in the completed case; every storage
upload call made uses `f"{video_id}.mp4"` as its path, and a completed
result records exactly one such call under the id it reports; a stage-1
failure makes no upload call yet still reports the id. -/
theorem fresh_video_id_in_result (videoId : List Char)
    (explainRes : Except (List Char) (List Char))
    (codegenRes : List Char → Except (List Char) (List Char))
    (execRes : List Char → Except (List Char) (List Nat × List Char))
    (storage : List Char → List Nat → Except (List Char) (List Char)) :
    (generate_video videoId explainRes codegenRes execRes storage).1.videoId = videoId ∧
    ((generate_video videoId explainRes codegenRes execRes storage).1.status =
        "completed".data →
      ∃ b, (generate_video videoId explainRes codegenRes execRes storage).2 =
        [((generate_video videoId explainRes codegenRes execRes storage).1.videoId ++
          ".mp4".data, b)]) ∧
    (∀ call ∈ (generate_video videoId explainRes codegenRes execRes storage).2,
      call.1 = videoId ++ ".mp4".data) ∧
    (∀ e, explainRes = .error e →
      (generate_video videoId explainRes codegenRes execRes storage).1.videoId = videoId ∧
      (generate_video videoId explainRes codegenRes execRes storage).1.status = "failed".data ∧
      (generate_video videoId explainRes codegenRes execRes storage).2 = []) := by
  rcases generate_video_cases videoId explainRes codegenRes execRes storage with
    ⟨e, hr⟩ | ⟨e, b, hr⟩ | ⟨u, b, hr⟩
  · rw [hr]
    refine ⟨rfl, ?_, by simp, fun e' _ => ⟨rfl, rfl, rfl⟩⟩
    intro h
    simp [failedResult] at h
  · rw [hr]
    refine ⟨rfl, ?_, by simp, ?_⟩
    · intro h
      simp [failedResult] at h
    · intro e' he'
      exfalso
      have hv : generate_video videoId explainRes codegenRes execRes storage =
          (failedResult videoId e', []) := by
        simp [generate_video, get_or_generate_code, Except.bind, he']
      rw [hr] at hv
      simpa using congrArg Prod.snd hv
  · rw [hr]
    refine ⟨rfl, fun _ => ⟨b, rfl⟩, by simp, ?_⟩
    intro e' he'
    exfalso
    have hv : generate_video videoId explainRes codegenRes execRes storage =
        (failedResult videoId e', []) := by
      simp [generate_video, get_or_generate_code, Except.bind, he']
    rw [hr] at hv
    simpa using congrArg Prod.snd hv

/-- Witness for `fresh_video_id_in_result`: on a fully successful run the
single storage call is under `vid.mp4`, and on a stage-1 failure the failed
result still reports id `vid` with no storage call. -/
theorem fresh_video_id_in_result_witness :
    (∀ call ∈ (generate_video "vid".data (.ok "exp".data) (fun _ => .ok "code".data)
        (fun _ => .ok ([1, 2], "log".data))
        (fun p _ => .ok ("https://cdn/".data ++ p))).2,
      call.1 = "vid".data ++ ".mp4".data) ∧
    ((generate_video "vid".data (.error "boom".data) (fun _ => .ok "code".data)
        (fun _ => .ok ([1, 2], "log".data))
        (fun p _ => .ok ("https://cdn/".data ++ p))).1.videoId = "vid".data ∧
     (generate_video "vid".data (.error "boom".data) (fun _ => .ok "code".data)
        (fun _ => .ok ([1, 2], "log".data))
        (fun p _ => .ok ("https://cdn/".data ++ p))).1.status = "failed".data ∧
     (generate_video "vid".data (.error "boom".data) (fun _ => .ok "code".data)
        (fun _ => .ok ([1, 2], "log".data))
        (fun p _ => .ok ("https://cdn/".data ++ p))).2 = []) :=
  ⟨(fresh_video_id_in_result "vid".data (.ok "exp".data) (fun _ => .ok "code".data)
      (fun _ => .ok ([1, 2], "log".data))
      (fun p _ => .ok ("https://cdn/".data ++ p))).2.2.1,
   (fresh_video_id_in_result "vid".data (.error "boom".data) (fun _ => .ok "code".data)
      (fun _ => .ok ([1, 2], "log".data))
      (fun p _ => .ok ("https://cdn/".data ++ p))).2.2.2
      "boom".data rfl⟩

/-- C9 counterexample: with six prior questions in stored order the context
passed to the model call is the first five, which is not the most recent
five — `q5`, the newest, is omitted while `q0`, the oldest, is included. -/
theorem context_omits_most_recent_question :
    (get_next_question "id".data "s".data "u".data
        ["q0".data, "q1".data, "q2".data, "q3".data, "q4".data, "q5".data]
        none ⟨"q6".data, none⟩).1 =
      ["q0".data, "q1".data, "q2".data, "q3".data, "q4".data] ∧
    mostRecentUpTo 5
        ["q0".data, "q1".data, "q2".data, "q3".data, "q4".data, "q5".data] =
      ["q1".data, "q2".data, "q3".data, "q4".data, "q5".data] ∧
    ["q0".data, "q1".data, "q2".data, "q3".data, "q4".data] ≠
      ["q1".data, "q2".data, "q3".data, "q4".data, "q5".data] := by
  refine ⟨rfl, rfl, by decide⟩

/-- C9 (amended): `get_next_question` passes the **first** up to five of the
session's stored question texts (in the order the unordered select returns
them) as anti-repetition context — coinciding with all of them when at most
five exist — and persists the generated question under the supplied fresh
identifier with an attempts counter of zero. -/
theorem context_slice_and_persistence (freshId sessionId userId : List Char)
    (storedQuestions : List (List Char)) (explicitDifficulty : Option Int)
    (gen : GeneratedQuestion) :
    (get_next_question freshId sessionId userId storedQuestions
        explicitDifficulty gen).1 = storedQuestions.take 5 ∧
    (storedQuestions.length ≤ 5 →
      (get_next_question freshId sessionId userId storedQuestions
        explicitDifficulty gen).1 = storedQuestions) ∧
    (get_next_question freshId sessionId userId storedQuestions
        explicitDifficulty gen).2.1.attempts = 0 ∧
    (get_next_question freshId sessionId userId storedQuestions
        explicitDifficulty gen).2.1.id = freshId ∧
    (get_next_question freshId sessionId userId storedQuestions
        explicitDifficulty gen).2.2.questionId = freshId ∧
    (get_next_question freshId sessionId userId storedQuestions
        explicitDifficulty gen).2.1.question = gen.question := by
  refine ⟨rfl, ?_, rfl, rfl, rfl, rfl⟩
  intro hle
  simp [get_next_question, promptContext, List.take_of_length_le hle]

/-- Witness for `context_slice_and_persistence`: with three stored
questions the whole list is passed and the inserted row has zero
attempts. -/
theorem context_slice_and_persistence_witness :
    (get_next_question "id".data "s".data "u".data
        ["a".data, "b".data, "c".data] none ⟨"q".data, none⟩).1 =
      ["a".data, "b".data, "c".data] ∧
    (get_next_question "id".data "s".data "u".data
        ["a".data, "b".data, "c".data] none ⟨"q".data, none⟩).2.1.attempts = 0 :=
  ⟨(context_slice_and_persistence "id".data "s".data "u".data
      ["a".data, "b".data, "c".data] none ⟨"q".data, none⟩).2.1 (by decide),
   (context_slice_and_persistence "id".data "s".data "u".data
      ["a".data, "b".data, "c".data] none ⟨"q".data, none⟩).2.2.1⟩

/-- C7: in `get_next_question`, a missing difficulty is derived from the
session's question count — 1 for counts 0-2, 2 for counts 3-5, one more per
3 questions, capped at 10 — and an explicit difficulty is clamped into
[1, 10] (0 becomes 1, 15 becomes 10) rather than rejected. -/
theorem difficulty_derivation_and_clamping (c : Nat) (d : Int) :
    (c ≤ 2 → deriveDifficulty none c = 1) ∧
    (3 ≤ c → c ≤ 5 → deriveDifficulty none c = 2) ∧
    (deriveDifficulty none c = min (1 + (c : Int) / 3) 10) ∧
    (deriveDifficulty none c ≤ 10) ∧
    (deriveDifficulty none (c + 3) = min (deriveDifficulty none c + 1) 10) ∧
    (deriveDifficulty (some 0) c = 1) ∧
    (deriveDifficulty (some 15) c = 10) ∧
    (1 ≤ deriveDifficulty (some d) c ∧ deriveDifficulty (some d) c ≤ 10) ∧
    (1 ≤ d → d ≤ 10 → deriveDifficulty (some d) c = d) := by
  have hc : ((c + 3 : Nat) : Int) = (c : Int) + 3 := by push_cast; ring
  simp only [deriveDifficulty, hc]
  refine ⟨?_, ?_, trivial, ?_, ?_, ?_, ?_, ?_, ?_⟩ <;> omega

/-- Witness for `difficulty_derivation_and_clamping` at concrete inputs:
count 4 derives difficulty 2, count 1 derives 1, explicit 7 stays 7. -/
theorem difficulty_derivation_and_clamping_witness :
    deriveDifficulty none 4 = 2 ∧ deriveDifficulty none 1 = 1 ∧
    deriveDifficulty (some 7) 4 = 7 :=
  ⟨(difficulty_derivation_and_clamping 4 7).2.1 (by omega) (by omega),
   (difficulty_derivation_and_clamping 1 7).1 (by omega),
   (difficulty_derivation_and_clamping 4 7).2.2.2.2.2.2.2.2 (by omega) (by omega)⟩

/-- C6: `validate_user_answer`'s escalating feedback policy — resulting
attempt count 1 wrong gives the generic retry message, count 2 wrong gives
the hint behind its fixed lead-in, count 3+ wrong gives the model feedback
behind its fixed lead-in, a correct answer gives the model feedback verbatim
at any count, and `offer_video` is true exactly when wrong and count ≥ 3. -/
theorem escalating_feedback_policy (q t : List Char) (a : Nat)
    (v : Validation) (hint : List Char) :
    (v.correct = false → a + 1 = 1 →
      (validate_user_answer q t a v hint).feedback = "Incorrect. Please try again.".data ∧
      (validate_user_answer q t a v hint).offerVideo = false) ∧
    (v.correct = false → a + 1 = 2 →
      (validate_user_answer q t a v hint).feedback =
        "Not quite right. Here's a hint: ".data ++ hint ∧
      (validate_user_answer q t a v hint).offerVideo = false) ∧
    (v.correct = false → 3 ≤ a + 1 →
      (validate_user_answer q t a v hint).feedback =
        "That's not correct. ".data ++ v.feedback ∧
      (validate_user_answer q t a v hint).offerVideo = true) ∧
    (v.correct = true →
      (validate_user_answer q t a v hint).feedback = v.feedback ∧
      (validate_user_answer q t a v hint).offerVideo = false) ∧
    ((validate_user_answer q t a v hint).offerVideo = true ↔
      v.correct = false ∧ 3 ≤ (validate_user_answer q t a v hint).attempts) ∧
    (validate_user_answer q t a v hint).attempts = a + 1 := by
  unfold validate_user_answer
  refine ⟨?_, ?_, ?_, ?_, ?_, rfl⟩
  · intro hc h1
    simp [hc, h1]
  · intro hc h2
    simp [hc, h2]
  · intro hc h3
    have h1 : ¬ (a + 1 = 1) := by omega
    have h2 : ¬ (a + 1 = 2) := by omega
    simp [hc, h1, h2, h3]
  · intro hc
    simp [hc]
  · simp only []
    constructor
    · intro h
      simp only [Bool.and_eq_true, Bool.not_eq_true', decide_eq_true_eq] at h
      exact ⟨h.1, h.2⟩
    · rintro ⟨hc, hn⟩
      simp [hc, hn]

/-- Witness for `escalating_feedback_policy`: a wrong answer whose resulting
attempt count is 3 yields the feedback-bearing message and offers a video. -/
theorem escalating_feedback_policy_witness :
    (validate_user_answer "12 / 3 = ?".data "Long Division".data 2
        ⟨false, "Check the quotient.".data⟩ "h".data).feedback =
      "That's not correct. ".data ++ "Check the quotient.".data ∧
    (validate_user_answer "12 / 3 = ?".data "Long Division".data 2
        ⟨false, "Check the quotient.".data⟩ "h".data).offerVideo = true :=
  (escalating_feedback_policy "12 / 3 = ?".data "Long Division".data 2
      ⟨false, "Check the quotient.".data⟩ "h".data).2.2.1 rfl (by omega)

/-- C8: `cleanup_old_videos` removes exactly the stored videos strictly
older than one day, in at most one batch `remove` call that carries exactly
their names, leaves younger videos alone, and reports their count and
names. -/
theorem cleanup_removes_exactly_old_videos (now : Int) (videos : List StoredVideo)
    (hnodup : (videos.map (·.name)).Nodup) :
    (cleanup_old_videos now videos).2.files =
      (videos.filter (fun v => v.createdAt < now - oneDay)).map (·.name) ∧
    (cleanup_old_videos now videos).2.deleted =
      ((videos.filter (fun v => v.createdAt < now - oneDay)).map (·.name)).length ∧
    (∀ v ∈ videos, v.createdAt < now - oneDay →
      v.name ∈ (cleanup_old_videos now videos).2.files) ∧
    (∀ v ∈ videos, ¬ v.createdAt < now - oneDay →
      v.name ∉ (cleanup_old_videos now videos).2.files) ∧
    (cleanup_old_videos now videos).1.length ≤ 1 ∧
    ((cleanup_old_videos now videos).2.files ≠ [] →
      (cleanup_old_videos now videos).1 = [(cleanup_old_videos now videos).2.files]) := by
  simp only [cleanup_old_videos, oneDay]
  refine ⟨trivial, trivial, ?_, ?_, ?_, ?_⟩
  · intro v hv hold
    simp only [List.mem_map, List.mem_filter]
    exact ⟨v, ⟨hv, by simpa using hold⟩, rfl⟩
  · intro v hv hyoung
    simp only [List.mem_map, List.mem_filter]
    rintro ⟨w, ⟨hw, hwold⟩, hname⟩
    have hwv : w = v :=
      List.inj_on_of_nodup_map hnodup hw hv hname
    subst hwv
    simp only [decide_eq_true_eq] at hwold
    omega
  · split <;> simp
  · intro h
    rw [if_neg]
    simpa [List.isEmpty_iff] using h

/-- Witness for `cleanup_removes_exactly_old_videos`, the spec's scenario C:
videos aged 25h, 23h and 2d against a 1-day threshold — the 25h and 2d
entries are removed in one batch call and the result reports `deleted = 2`
with exactly those names. -/
theorem cleanup_removes_exactly_old_videos_witness :
    (cleanup_old_videos 0
        [⟨"a.mp4".data, -90000⟩, ⟨"b.mp4".data, -82800⟩, ⟨"c.mp4".data, -172800⟩]).2.files =
      ["a.mp4".data, "c.mp4".data] ∧
    (cleanup_old_videos 0
        [⟨"a.mp4".data, -90000⟩, ⟨"b.mp4".data, -82800⟩, ⟨"c.mp4".data, -172800⟩]).2.deleted = 2 ∧
    (cleanup_old_videos 0
        [⟨"a.mp4".data, -90000⟩, ⟨"b.mp4".data, -82800⟩, ⟨"c.mp4".data, -172800⟩]).1 =
      [["a.mp4".data, "c.mp4".data]] := by
  have h := cleanup_removes_exactly_old_videos 0
    [⟨"a.mp4".data, -90000⟩, ⟨"b.mp4".data, -82800⟩, ⟨"c.mp4".data, -172800⟩]
    (by decide)
  refine ⟨?_, ?_, ?_⟩
  · rw [h.1]; decide
  · rw [h.2.1]; decide
  · rw [h.2.2.2.2.2 (by rw [h.1]; decide), h.1]
    decide

/-! ## Helper lemmas about the structured-output parser -/

theorem char_ne_of_bounds {c : Char} {lo hi : Nat}
    (h : lo ≤ c.toNat ∧ c.toNat ≤ hi) (d : Char)
    (hd : d.toNat < lo ∨ hi < d.toNat) : c ≠ d := by
  intro heq
  subst heq
  omega

theorem isJsonWs_false_of_bound {c : Char} (h : 33 ≤ c.toNat) : isJsonWs c = false := by
  have h1 : c ≠ ' ' := fun heq => by subst heq; exact absurd h (by decide)
  have h2 : c ≠ '\t' := fun heq => by subst heq; exact absurd h (by decide)
  have h3 : c ≠ '\n' := fun heq => by subst heq; exact absurd h (by decide)
  have h4 : c ≠ '\r' := fun heq => by subst heq; exact absurd h (by decide)
  simp [isJsonWs, h1, h2, h3, h4]

theorem isPyWs_false_of_bound {c : Char} (h : 33 ≤ c.toNat) : isPyWs c = false := by
  have h1 : c ≠ ' ' := fun heq => by subst heq; exact absurd h (by decide)
  have h2 : c ≠ '\n' := fun heq => by subst heq; exact absurd h (by decide)
  have h3 : c ≠ '\t' := fun heq => by subst heq; exact absurd h (by decide)
  have h4 : c ≠ '\r' := fun heq => by subst heq; exact absurd h (by decide)
  have h5 : c ≠ '\x0c' := fun heq => by subst heq; exact absurd h (by decide)
  have h6 : c ≠ '\x0b' := fun heq => by subst heq; exact absurd h (by decide)
  simp [isPyWs, h1, h2, h3, h4, h5, h6]

theorem skipWs_cons_of_bound {c : Char} (t : List Char) (h : 33 ≤ c.toNat) :
    skipWs (c :: t) = c :: t := by
  simp [skipWs, List.dropWhile_cons, isJsonWs_false_of_bound h]

/-- The `json.loads` scanner rejects any input whose first significant
character is an ASCII uppercase letter: no JSON value starts there. -/
theorem parseVal_none_of_upper (fuel : Nat) (cs rest : List Char) (c : Char)
    (hws : skipWs cs = c :: rest) (hb : 65 ≤ c.toNat ∧ c.toNat ≤ 90) :
    parseVal fuel cs = none := by
  cases fuel with
  | zero => rfl
  | succ f =>
    have h1 : c ≠ '{' := char_ne_of_bounds hb '{' (by decide)
    have h2 : c ≠ '[' := char_ne_of_bounds hb '[' (by decide)
    have h3 : c ≠ '"' := char_ne_of_bounds hb '"' (by decide)
    have h4 : c ≠ 't' := char_ne_of_bounds hb 't' (by decide)
    have h5 : c ≠ 'f' := char_ne_of_bounds hb 'f' (by decide)
    have h6 : c ≠ 'n' := char_ne_of_bounds hb 'n' (by decide)
    have h7 : c ≠ '-' := char_ne_of_bounds hb '-' (by decide)
    have h8 : isDigitCh c = false := by
      simp only [isDigitCh, Bool.and_eq_false_iff]
      simp only [decide_eq_false_iff_not, not_le]
      omega
    simp only [parseVal, hws]
    rw [if_neg h1, if_neg h2, if_neg h3, if_neg h4, if_neg h5, if_neg h6, if_neg h7]
    simp [h8]

theorem jsonParse_none_of_upper (cs rest : List Char) (c : Char)
    (hws : skipWs cs = c :: rest) (hb : 65 ≤ c.toNat ∧ c.toNat ≤ 90) :
    jsonParse cs = none := by
  unfold jsonParse
  rw [parseVal_none_of_upper _ _ _ _ hws hb]

theorem splitNl_ne_nil (cs : List Char) : splitNl cs ≠ [] := by
  cases cs with
  | nil => simp [splitNl]
  | cons c rest =>
    simp only [splitNl]
    split
    · simp
    · split <;> simp

theorem joinNl_splitNl (cs : List Char) : joinNl (splitNl cs) = cs := by
  induction cs with
  | nil => rfl
  | cons c rest ih =>
    simp only [splitNl]
    by_cases hc : c = '\n'
    · rw [if_pos hc]
      rcases hsp : splitNl rest with _ | ⟨l, ls⟩
      · exact absurd hsp (splitNl_ne_nil rest)
      · rw [hsp] at ih
        subst hc
        show joinNl ([] :: l :: ls) = '\n' :: rest
        simp only [joinNl, List.nil_append]
        rw [ih]
    · rw [if_neg hc]
      rcases hsp : splitNl rest with _ | ⟨l, ls⟩
      · exact absurd hsp (splitNl_ne_nil rest)
      · rw [hsp] at ih
        cases ls with
        | nil =>
          show joinNl [c :: l] = c :: rest
          simp only [joinNl] at ih ⊢
          rw [ih]
        | cons l2 ls2 =>
          show joinNl ((c :: l) :: l2 :: ls2) = c :: rest
          simp only [joinNl, List.cons_append] at ih ⊢
          rw [ih]

theorem splitNl_append_line (l rest : List Char) (h : '\n' ∉ l) :
    splitNl (l ++ '\n' :: rest) = l :: splitNl rest := by
  induction l with
  | nil => simp [splitNl]
  | cons c t ih =>
    have hc : c ≠ '\n' := fun heq => h (by simp [heq])
    have ht : '\n' ∉ t := fun hm => h (by simp [hm])
    simp only [List.cons_append, splitNl, if_neg hc, List.append_eq, ih ht]

theorem splitNl_of_no_nl (cs : List Char) (h : '\n' ∉ cs) : splitNl cs = [cs] := by
  induction cs with
  | nil => rfl
  | cons c t ih =>
    have hc : c ≠ '\n' := fun heq => h (by simp [heq])
    have ht : '\n' ∉ t := fun hm => h (by simp [hm])
    simp only [splitNl, if_neg hc, ih ht]

theorem suffixScan_append (pre tails : List (List Char))
    (h : ∀ i, i < pre.length → jsonParse (joinNl (pre.drop i ++ tails)) = none) :
    suffixScan (pre ++ tails) = suffixScan tails := by
  induction pre with
  | nil => rfl
  | cons l t ih =>
    have h0 : jsonParse (joinNl (l :: (t ++ tails))) = none := by
      have := h 0 (by simp)
      simpa using this
    simp only [List.cons_append, suffixScan, List.append_eq, h0]
    exact ih (fun i hi => by simpa using h (i + 1) (by simpa using Nat.succ_lt_succ hi))

theorem joinNl_cons_head (c : Char) (t0 : List Char) (ls : List (List Char)) :
    ∃ X, joinNl ((c :: t0) :: ls) = c :: X := by
  cases ls with
  | nil => exact ⟨t0, rfl⟩
  | cons l2 ls2 => exact ⟨t0 ++ '\n' :: joinNl (l2 :: ls2), by simp [joinNl]⟩

theorem dropWhile_cons_false (p : Char → Bool) (c : Char) (t : List Char)
    (h : p c = false) : List.dropWhile p (c :: t) = c :: t := by
  simp [List.dropWhile_cons, h]

theorem pyStrip_shape (c d : Char) (mid : List Char)
    (hc : isPyWs c = false) (hd : isPyWs d = false) :
    pyStrip (c :: mid ++ [d]) = c :: mid ++ [d] := by
  unfold pyStrip
  rw [show (c :: mid ++ [d] : List Char) = c :: (mid ++ [d]) from rfl,
    dropWhile_cons_false _ _ _ hc]
  have hrev : (c :: (mid ++ [d])).reverse = d :: (mid.reverse ++ [c]) := by simp
  rw [hrev, dropWhile_cons_false _ _ _ hd, ← hrev, List.reverse_reverse]

theorem listStarts_false_of_head (p0 c : Char) (ps cs : List Char) (h : c ≠ p0) :
    listStarts (p0 :: ps) (c :: cs) = false := by
  simp [listStarts, h]

theorem listEnds_bt_false (mid : List Char) (d : Char) (h : d ≠ '`') :
    listEnds "```".data (mid ++ [d]) = false := by
  have hrev : (mid ++ [d]).reverse = d :: mid.reverse := by simp
  simp [listEnds, hrev, List.take_succ_cons, h]

theorem fenceStrip_id (cs : List Char)
    (h7 : listStarts "```json".data cs = false)
    (h3 : listStarts "```".data cs = false)
    (he : listEnds "```".data cs = false) : fenceStrip cs = cs := by
  simp [fenceStrip, h7, h3, he]

/-- `prepText` leaves untouched a text that starts and ends with
non-whitespace, non-backtick characters. -/
theorem prepText_id (c d : Char) (mid : List Char)
    (hcw : 33 ≤ c.toNat) (hdw : 33 ≤ d.toNat) (hcb : c ≠ '`') (hdb : d ≠ '`') :
    prepText (c :: mid ++ [d]) = c :: mid ++ [d] := by
  have hps : pyStrip (c :: mid ++ [d]) = c :: mid ++ [d] :=
    pyStrip_shape c d mid (isPyWs_false_of_bound hcw) (isPyWs_false_of_bound hdw)
  have hfs : fenceStrip (c :: mid ++ [d]) = c :: mid ++ [d] := by
    have hshape : (c :: mid ++ [d] : List Char) = c :: (mid ++ [d]) := rfl
    refine fenceStrip_id _ ?_ ?_ ?_
    · rw [hshape]; exact listStarts_false_of_head _ _ _ _ hcb
    · rw [hshape]; exact listStarts_false_of_head _ _ _ _ hcb
    · have : (c :: mid ++ [d] : List Char) = (c :: mid) ++ [d] := rfl
      rw [this]; exact listEnds_bt_false _ _ hdb
  unfold prepText
  rw [hps, hfs, hps]

theorem dropWhile_append_of_all (p : Char → Bool) (l rest : List Char)
    (h : ∀ c ∈ l, p c = true) :
    List.dropWhile p (l ++ rest) = List.dropWhile p rest := by
  induction l with
  | nil => rfl
  | cons c t ih =>
    rw [List.cons_append, List.dropWhile_cons, if_pos (h c (by simp))]
    exact ih (fun x hx => h x (by simp [hx]))

theorem scanDepth_cons (d : Int) (c : Char) (t : List Char) :
    scanDepth d (c :: t) = scanDepth (braceStep d c) t := rfl

/-- Scanning a segment with no zero-hitting close brace, the brace loop
just moves the segment into the accumulated prefix. -/
theorem braceLoop_through (seg : List Char) : ∀ (pre rest : List Char) (d : Int),
    hasZeroClose d seg = false →
    braceLoop pre (seg ++ rest) d = braceLoop (pre ++ seg) rest (scanDepth d seg)
  | pre, rest, d, h => by
    match seg, h with
    | [], h => simp [scanDepth]
    | c :: t, h =>
      simp only [hasZeroClose, Bool.or_eq_false_iff, Bool.and_eq_false_iff] at h
      have hnc : ¬(c = '}' ∧ braceStep d c = 0) := by
        rcases h.1 with h' | h'
        · exact fun hand => by simp [hand.1] at h'
        · exact fun hand => by simp [hand.2] at h'
      have ht : hasZeroClose (braceStep d c) t = false := h.2
      rw [List.cons_append, braceLoop]
      simp only [if_neg hnc]
      rw [braceLoop_through t (pre ++ [c]) rest (braceStep d c) ht]
      simp [scanDepth_cons, List.append_assoc]

theorem foldr_lines_end (pls : List (List Char)) (body : List Char) (d : Char) :
    ∃ mid, pls.foldr (fun l acc => l ++ '\n' :: acc) (body ++ [d]) = mid ++ [d] := by
  induction pls with
  | nil => exact ⟨body, rfl⟩
  | cons l t ih =>
    obtain ⟨mid, hm⟩ := ih
    exact ⟨l ++ '\n' :: mid, by simp [hm]⟩

theorem splitNl_foldr (pls : List (List Char)) (X : List Char)
    (h : ∀ l ∈ pls, '\n' ∉ l) :
    splitNl (pls.foldr (fun l acc => l ++ '\n' :: acc) X) = pls ++ splitNl X := by
  induction pls with
  | nil => rfl
  | cons l t ih =>
    simp only [List.foldr_cons, List.cons_append]
    rw [splitNl_append_line _ _ (h l (by simp)), ih (fun x hx => h x (by simp [hx]))]

theorem dropWhile_foldr_lines (pls : List (List Char)) (X : List Char)
    (h : ∀ l ∈ pls, '{' ∉ l) :
    List.dropWhile (fun c => c ≠ '{') (pls.foldr (fun l acc => l ++ '\n' :: acc) X) =
      List.dropWhile (fun c => c ≠ '{') X := by
  induction pls with
  | nil => rfl
  | cons l t ih =>
    simp only [List.foldr_cons]
    rw [dropWhile_append_of_all _ _ _ (fun c hc => by
      simp only [decide_eq_true_eq]
      exact fun heq => h l (by simp) (heq ▸ hc))]
    rw [List.dropWhile_cons, if_pos (by decide)]
    exact ih (fun x hx => h x (by simp [hx]))

theorem prepText_single (c : Char) (hw : 33 ≤ c.toNat) (hq : c ≠ '`') :
    prepText [c] = [c] := by
  have h1 : pyStrip [c] = [c] := by
    unfold pyStrip
    rw [dropWhile_cons_false _ _ _ (isPyWs_false_of_bound hw)]
    rw [show ([c] : List Char).reverse = [c] from rfl,
      dropWhile_cons_false _ _ _ (isPyWs_false_of_bound hw)]
    rfl
  have h2 : fenceStrip [c] = [c] := by
    refine fenceStrip_id _ ?_ ?_ ?_
    · exact listStarts_false_of_head _ _ _ _ hq
    · exact listStarts_false_of_head _ _ _ _ hq
    · rw [show ([c] : List Char) = [] ++ [c] from rfl]
      exact listEnds_bt_false _ _ hq
  unfold prepText
  rw [h1, h2, h1]

theorem prepText_id_of (raw : List Char) (c d : Char) (X mid2 : List Char)
    (h1 : raw = c :: X) (h2 : raw = mid2 ++ [d])
    (hcw : 33 ≤ c.toNat) (hdw : 33 ≤ d.toNat) (hcb : c ≠ '`') (hdb : d ≠ '`') :
    prepText raw = raw := by
  cases mid2 with
  | nil =>
    rw [h2] at h1 ⊢
    simp only [List.nil_append] at h1 ⊢
    obtain ⟨hcd, -⟩ := List.cons.inj h1.symm
    subst hcd
    exact prepText_single _ hcw hcb
  | cons m ms =>
    rw [h2] at h1
    simp only [List.cons_append, List.cons.injEq] at h1
    obtain ⟨hcm, hXe⟩ := h1
    subst hcm
    rw [h2]
    exact prepText_id _ d ms hcw hdw hcb hdb

theorem listStarts_append_self (p x : List Char) : listStarts p (p ++ x) = true := by
  simp [listStarts, List.take_left]

theorem listEnds_append_self (p x : List Char) : listEnds p (x ++ p) = true := by
  simp only [listEnds, List.reverse_append]
  rw [show p.length = p.reverse.length from (List.length_reverse p).symm, List.take_left]
  simp

/-- Stripping a fence-wrapped JSON text recovers exactly the inner text. -/
theorem prepText_fenced (js : List Char) (jc : Char) (jt body : List Char)
    (hj : js = jc :: jt) (hb : js = body ++ ['}']) (hws : 33 ≤ jc.toNat) :
    prepText ("```json\n".data ++ js ++ "\n```".data) = js := by
  have e1 : "```json\n".data ++ js ++ "\n```".data
      = "```json".data ++ ('\n' :: (js ++ ('\n' :: "```".data))) := by
    rw [show "```json\n".data = "```json".data ++ ['\n'] from rfl,
      show "\n```".data = '\n' :: "```".data from rfl]
    simp [List.append_assoc]
  have hpy : pyStrip ("```json".data ++ ('\n' :: (js ++ ('\n' :: "```".data))))
      = "```json".data ++ ('\n' :: (js ++ ('\n' :: "```".data))) := by
    have e2 : "```json".data ++ ('\n' :: (js ++ ('\n' :: "```".data)))
        = '`' :: ("``json".data ++ ('\n' :: (js ++ ('\n' :: "``".data)))) ++ ['`'] := by
      rw [show "```json".data = '`' :: "``json".data from rfl,
        show ("```".data : List Char) = "``".data ++ ['`'] from rfl]
      simp [List.append_assoc]
    rw [e2]
    exact pyStrip_shape '`' '`' _ (by decide) (by decide)
  have hstart3 : listStarts "```".data ('\n' :: (js ++ ('\n' :: "```".data))) = false :=
    listStarts_false_of_head '`' '\n' _ _ (by decide)
  have e3 : ('\n' :: (js ++ ('\n' :: "```".data)))
      = ('\n' :: js ++ ['\n']) ++ "```".data := by
    simp [List.append_assoc]
  have hend3 : listEnds "```".data ('\n' :: (js ++ ('\n' :: "```".data))) = true := by
    rw [e3]
    exact listEnds_append_self _ _
  have hfs : fenceStrip ("```json".data ++ ('\n' :: (js ++ ('\n' :: "```".data))))
      = '\n' :: js ++ ['\n'] := by
    unfold fenceStrip
    rw [listStarts_append_self "```json".data _]
    simp only [if_true]
    rw [show (7 : Nat) = ("```json".data).length from rfl, List.drop_left]
    rw [hstart3]
    simp only [Bool.false_eq_true, if_false]
    rw [hend3]
    simp only [if_true]
    rw [e3, List.reverse_append]
    rw [show (3 : Nat) = ("```".data).reverse.length from rfl, List.drop_left,
      List.reverse_reverse]
  have hfinal : pyStrip ('\n' :: js ++ ['\n']) = js := by
    unfold pyStrip
    have s1 : List.dropWhile isPyWs ('\n' :: js ++ ['\n']) = js ++ ['\n'] := by
      rw [show ('\n' :: js ++ ['\n'] : List Char) = '\n' :: (js ++ ['\n']) from rfl,
        List.dropWhile_cons, if_pos (by decide), hj, List.cons_append]
      have := dropWhile_cons_false isPyWs jc (jt ++ ['\n']) (isPyWs_false_of_bound hws)
      simpa using this
    rw [s1]
    have s2 : (js ++ ['\n']).reverse = '\n' :: js.reverse := by simp
    rw [s2, List.dropWhile_cons, if_pos (by decide)]
    have s3 : js.reverse = '}' :: body.reverse := by rw [hb]; simp
    rw [s3, dropWhile_cons_false _ _ _ (by decide), ← s3, List.reverse_reverse]
  unfold prepText
  rw [e1, hpy, hfs, hfinal]

/-- Strategy 1, direct form: a bare JSON object text parses directly. -/
theorem pyParse_direct (js jt body : List Char) (jc : Char) (v : Json)
    (hj : js = jc :: jt) (hb : js = body ++ ['}'])
    (hw : 33 ≤ jc.toNat) (hq : jc ≠ '`') (hv : jsonParse js = some v) :
    pyParse js = .ok v := by
  have hprep : prepText js = js :=
    prepText_id_of js jc '}' jt body hj hb hw (by decide) hq (by decide)
  simp only [pyParse]
  rw [hprep, hv]

/-- Strategy 1, fenced form: a fence-wrapped JSON object text parses after
fence stripping. -/
theorem pyParse_fenced (js jt body : List Char) (jc : Char) (v : Json)
    (hj : js = jc :: jt) (hb : js = body ++ ['}'])
    (hw : 33 ≤ jc.toNat) (hv : jsonParse js = some v) :
    pyParse ("```json\n".data ++ js ++ "\n```".data) = .ok v := by
  have hp := prepText_fenced js jc jt body hj hb hw
  simp only [pyParse]
  rw [hp, hv]

/-- Strategy 2: prose lines (non-empty, starting with an uppercase ASCII
letter) followed by a JSON text are recovered by the line-suffix loop. -/
theorem pyParse_prefix_lines (preLines : List (List Char)) (js body : List Char) (v : Json)
    (hpne : preLines ≠ [])
    (hlines : ∀ l ∈ preLines, ∃ c t, l = c :: t ∧ 65 ≤ c.toNat ∧ c.toNat ≤ 90 ∧
      '\n' ∉ (c :: t))
    (hb : js = body ++ ['}'])
    (hv : jsonParse js = some v) :
    pyParse (preLines.foldr (fun l acc => l ++ '\n' :: acc) js) = .ok v := by
  obtain ⟨l0, rest0, rfl⟩ : ∃ l0 rest0, preLines = l0 :: rest0 := by
    cases preLines with
    | nil => exact absurd rfl hpne
    | cons a b => exact ⟨a, b, rfl⟩
  obtain ⟨c0, t0, hl0, hlb, hub, hnl0⟩ := hlines l0 (by simp)
  set raw := (l0 :: rest0).foldr (fun l acc => l ++ '\n' :: acc) js with hraww
  have hraw : raw = c0 :: (t0 ++ '\n' :: rest0.foldr (fun l acc => l ++ '\n' :: acc) js) := by
    rw [hraww]
    simp [hl0]
  obtain ⟨mid, hmid⟩ : ∃ mid, raw = mid ++ ['}'] := by
    rw [hraww, hb]
    exact foldr_lines_end _ body '}'
  have hprep : prepText raw = raw :=
    prepText_id_of raw c0 '}' _ mid hraw hmid (by omega) (by decide)
      (char_ne_of_bounds ⟨hlb, hub⟩ '`' (by decide)) (by decide)
  have hdirect : jsonParse raw = none := by
    rw [hraw]
    exact jsonParse_none_of_upper _ _ c0 (skipWs_cons_of_bound _ (by omega)) ⟨hlb, hub⟩
  have hsplit : splitNl raw = (l0 :: rest0) ++ splitNl js := by
    rw [hraww]
    refine splitNl_foldr _ _ (fun l hl => ?_)
    obtain ⟨c, t, hlc, _, _, hn⟩ := hlines l hl
    rw [hlc]
    exact hn
  have hscanpre : suffixScan ((l0 :: rest0) ++ splitNl js) = suffixScan (splitNl js) := by
    apply suffixScan_append
    intro i hi
    rcases hdi : (l0 :: rest0).drop i with _ | ⟨li, rest'⟩
    · exfalso
      have hlen := congrArg List.length hdi
      simp only [List.length_drop, List.length_nil] at hlen
      omega
    · have hmem : li ∈ l0 :: rest0 :=
        List.drop_subset i (l0 :: rest0) (by rw [hdi]; simp)
      obtain ⟨ci, ti, hlic, hlib, hliu, -⟩ := hlines li hmem
      rw [List.cons_append, hlic]
      obtain ⟨Xi, hXi⟩ := joinNl_cons_head ci ti (rest' ++ splitNl js)
      rw [hXi]
      exact jsonParse_none_of_upper _ _ ci (skipWs_cons_of_bound _ (by omega)) ⟨hlib, hliu⟩
  have hjs : suffixScan (splitNl js) = some v := by
    rcases hsp : splitNl js with _ | ⟨l1, ls⟩
    · exact absurd hsp (splitNl_ne_nil js)
    · simp only [suffixScan]
      rw [show joinNl (l1 :: ls) = js from by rw [← hsp]; exact joinNl_splitNl js, hv]
  simp only [pyParse]
  rw [hprep, hdirect, hsplit, hscanpre, hjs]

/-- Strategy 3: an object whose brace scan first returns to depth zero at
its final brace, preceded by brace-free prose lines and followed by
trailing prose on the same line, is recovered by the brace loop. -/
theorem pyParse_brace (preLines : List (List Char)) (mid sufmid : List Char)
    (d : Char) (v : Json)
    (hlines : ∀ l ∈ preLines, ∃ c t, l = c :: t ∧ 65 ≤ c.toNat ∧ c.toNat ≤ 90 ∧
      '\n' ∉ (c :: t) ∧ '{' ∉ (c :: t))
    (hnzl : hasZeroClose 0 ('{' :: mid) = false)
    (hsd : scanDepth 0 ('{' :: mid) = 1)
    (hmidnl : '\n' ∉ ('{' :: mid))
    (hv : jsonParse ('{' :: mid ++ ['}']) = some v)
    (hdw : 33 ≤ d.toNat) (hdb : d ≠ '`')
    (hsufnl : '\n' ∉ (sufmid ++ [d]))
    (hjsuf : jsonParse (('{' :: mid ++ ['}']) ++ (sufmid ++ [d])) = none) :
    pyParse (preLines.foldr (fun l acc => l ++ '\n' :: acc)
      (('{' :: mid ++ ['}']) ++ (sufmid ++ [d]))) = .ok v := by
  set X := ('{' :: mid ++ ['}']) ++ (sufmid ++ [d]) with hX
  set raw := preLines.foldr (fun l acc => l ++ '\n' :: acc) X with hraww
  obtain ⟨ch, tl, hrawhd, hchw, hchb, hdisj⟩ :
      ∃ ch tl, raw = ch :: tl ∧ 33 ≤ ch.toNat ∧ ch ≠ '`' ∧
        (raw = X ∨ (65 ≤ ch.toNat ∧ ch.toNat ≤ 90)) := by
    cases preLines with
    | nil =>
      refine ⟨'{', (mid ++ ['}']) ++ (sufmid ++ [d]), ?_, by decide, by decide, Or.inl rfl⟩
      rw [hraww, hX]
      rfl
    | cons l0 rest0 =>
      obtain ⟨c0, t0, hl0, hlb, hub, -, -⟩ := hlines l0 (by simp)
      refine ⟨c0, t0 ++ '\n' :: rest0.foldr (fun l acc => l ++ '\n' :: acc) X, ?_,
        by omega, char_ne_of_bounds ⟨hlb, hub⟩ '`' (by decide), Or.inr ⟨hlb, hub⟩⟩
      rw [hraww]
      simp [hl0]
  obtain ⟨mid2, hmid2⟩ : ∃ mid2, raw = mid2 ++ [d] := by
    rw [hraww, hX,
      show ('{' :: mid ++ ['}']) ++ (sufmid ++ [d])
        = (('{' :: mid ++ ['}']) ++ sufmid) ++ [d] from by simp [List.append_assoc]]
    exact foldr_lines_end _ _ d
  have hprep : prepText raw = raw :=
    prepText_id_of raw ch d tl mid2 hrawhd hmid2 hchw hdw hchb hdb
  have hdirect : jsonParse raw = none := by
    rcases hdisj with hnil | hup
    · rw [hnil, hX]
      exact hjsuf
    · rw [hrawhd]
      exact jsonParse_none_of_upper _ _ ch (skipWs_cons_of_bound _ (by omega)) hup
  have hmm : '\n' ∉ mid := fun h' => hmidnl (by simp [h'])
  have hXnl : '\n' ∉ X := by
    intro hm
    rw [hX] at hm
    rcases List.mem_append.mp hm with h1 | h2
    · rcases List.mem_cons.mp h1 with h' | h''
      · exact absurd h' (by decide)
      · rcases List.mem_append.mp h'' with hml | hml
        · exact hmm hml
        · simp only [List.mem_singleton] at hml
          exact absurd hml (by decide)
    · exact hsufnl h2
  have hsplit : splitNl raw = preLines ++ [X] := by
    rw [hraww]
    rw [splitNl_foldr _ _ (fun l hl => by
      obtain ⟨c, t, hlc, -, -, hn, -⟩ := hlines l hl
      rw [hlc]; exact hn)]
    rw [splitNl_of_no_nl X hXnl]
  have hscanpre : suffixScan (preLines ++ [X]) = suffixScan [X] := by
    apply suffixScan_append
    intro i hi
    rcases hdi : preLines.drop i with _ | ⟨li, rest'⟩
    · exfalso
      have hlen := congrArg List.length hdi
      simp only [List.length_drop, List.length_nil] at hlen
      omega
    · have hmem : li ∈ preLines :=
        List.drop_subset i preLines (by rw [hdi]; simp)
      obtain ⟨ci, ti, hlic, hlib, hliu, -, -⟩ := hlines li hmem
      rw [List.cons_append, hlic]
      obtain ⟨Xi, hXi⟩ := joinNl_cons_head ci ti (rest' ++ [X])
      rw [hXi]
      exact jsonParse_none_of_upper _ _ ci (skipWs_cons_of_bound _ (by omega)) ⟨hlib, hliu⟩
  have hlast : suffixScan [X] = none := by
    simp only [suffixScan]
    rw [show joinNl [X] = X from rfl, hX, hjsuf]
  have hbrace : braceExtract raw = some v := by
    unfold braceExtract
    have hdw' : List.dropWhile (fun c => c ≠ '{') raw = X := by
      rw [hraww]
      rw [dropWhile_foldr_lines _ _ (fun l hl => by
        obtain ⟨c, t, hlc, -, -, -, hnb⟩ := hlines l hl
        rw [hlc]; exact hnb)]
      rw [hX, show ('{' :: mid ++ ['}']) ++ (sufmid ++ [d])
        = '{' :: ((mid ++ ['}']) ++ (sufmid ++ [d])) from rfl]
      exact dropWhile_cons_false _ _ _ (by decide)
    rw [hdw']
    show (if X.isEmpty = true then none else braceLoop [] X 0) = some v
    rw [show X.isEmpty = false from by rw [hX]; rfl]
    simp only [Bool.false_eq_true, if_false]
    rw [hX, show ('{' :: mid ++ ['}']) ++ (sufmid ++ [d])
      = ('{' :: mid) ++ ('}' :: (sufmid ++ [d])) from by simp]
    rw [braceLoop_through ('{' :: mid) [] ('}' :: (sufmid ++ [d])) 0 hnzl]
    rw [hsd]
    simp only [List.nil_append, braceLoop]
    rw [if_pos (by exact ⟨by trivial, by decide⟩)]
    rw [show ('{' :: mid) ++ ['}'] = '{' :: mid ++ ['}'] from by simp, hv]
  simp only [pyParse]
  rw [hprep, hdirect, hsplit, hscanpre, hlast, hbrace]

/-- C3 counterexample: the claim's universal recovery fails on the code.
The text `note \x7b` + newline + `\x7b"a": 1\x7d ok` contains a valid JSON
object with prefix prose and suffix prose, yet the parser propagates the
original parse error: the stray `\x7b` in the prefix prose defeats the
brace-matching strategy and the trailing prose defeats the line-suffix
strategy. -/
theorem parser_rejects_embedded_object :
    jsonParse "\x7b\"a\": 1\x7d".data =
      some (Json.obj [("a".data, Json.num false [1] [] none)]) ∧
    "note \x7b\n\x7b\"a\": 1\x7d ok".data =
      "note \x7b\n".data ++ "\x7b\"a\": 1\x7d".data ++ " ok".data ∧
    pyParse "note \x7b\n\x7b\"a\": 1\x7d ok".data =
      .error "note \x7b\n\x7b\"a\": 1\x7d ok".data :=
  ⟨rfl, rfl, rfl⟩

/-- C3 (amended): the structured-output parser applies its strategies in
order and recovers an embedded JSON object in the strategy-shaped cases —
(1) the object alone or wrapped in code fences; (2) the object preceded by
prose lines (uppercase-initial, newline-free); (3) a single-line object
whose brace scan first returns to zero at its closing brace, preceded by
brace-free prose lines and followed by same-line trailing prose — and for
text on which all three strategies fail it propagates the original parse
error with the offending prepared text.  (Unlike the claim as stated, not
every text containing a valid JSON object is recovered; see the
counterexample.) -/
theorem structured_output_parser_recovery :
    (∀ (js jt body : List Char) (v : Json) (jc : Char), js = jc :: jt → js = body ++ ['}'] →
      33 ≤ jc.toNat → jc ≠ '`' → jsonParse js = some v →
      pyParse js = .ok v ∧
      pyParse ("```json\n".data ++ js ++ "\n```".data) = .ok v) ∧
    (∀ (preLines : List (List Char)) (js body : List Char) (v : Json), preLines ≠ [] →
      (∀ l ∈ preLines, ∃ c t, l = c :: t ∧ 65 ≤ c.toNat ∧ c.toNat ≤ 90 ∧
        '\n' ∉ (c :: t)) →
      js = body ++ ['}'] → jsonParse js = some v →
      pyParse (preLines.foldr (fun l acc => l ++ '\n' :: acc) js) = .ok v) ∧
    (∀ (preLines : List (List Char)) (mid sufmid : List Char) (d : Char) (v : Json),
      (∀ l ∈ preLines, ∃ c t, l = c :: t ∧ 65 ≤ c.toNat ∧ c.toNat ≤ 90 ∧
        '\n' ∉ (c :: t) ∧ '{' ∉ (c :: t)) →
      hasZeroClose 0 ('{' :: mid) = false → scanDepth 0 ('{' :: mid) = 1 →
      '\n' ∉ ('{' :: mid) → jsonParse ('{' :: mid ++ ['}']) = some v →
      33 ≤ d.toNat → d ≠ '`' → '\n' ∉ (sufmid ++ [d]) →
      jsonParse (('{' :: mid ++ ['}']) ++ (sufmid ++ [d])) = none →
      pyParse (preLines.foldr (fun l acc => l ++ '\n' :: acc)
        (('{' :: mid ++ ['}']) ++ (sufmid ++ [d]))) = .ok v) ∧
    (∀ raw, jsonParse (prepText raw) = none →
      suffixScan (splitNl (prepText raw)) = none →
      braceExtract (prepText raw) = none →
      pyParse raw = .error (prepText raw)) := by
  refine ⟨?_, ?_, ?_, ?_⟩
  · intro js jt body v jc hj hb hw hq hv
    exact ⟨pyParse_direct js jt body jc v hj hb hw hq hv,
      pyParse_fenced js jt body jc v hj hb hw hv⟩
  · intro preLines js body v h1 h2 h3 h4
    exact pyParse_prefix_lines preLines js body v h1 h2 h3 h4
  · intro preLines mid sufmid d v h1 h2 h3 h4 h5 h6 h7 h8 h9
    exact pyParse_brace preLines mid sufmid d v h1 h2 h3 h4 h5 h6 h7 h8 h9
  · intro raw h1 h2 h3
    simp only [pyParse]
    rw [h1, h2, h3]

/-- Witness for `structured_output_parser_recovery`: each strategy case
applied at a concrete model response recovering `\x7b"a": 1\x7d`, and the
failure case at a concrete unrecoverable text. -/
theorem structured_output_parser_recovery_witness :
    pyParse "\x7b\"a\": 1\x7d".data =
      .ok (Json.obj [("a".data, Json.num false [1] [] none)]) ∧
    pyParse "```json\n\x7b\"a\": 1\x7d\n```".data =
      .ok (Json.obj [("a".data, Json.num false [1] [] none)]) ∧
    pyParse "Sure:\n\x7b\"a\": 1\x7d".data =
      .ok (Json.obj [("a".data, Json.num false [1] [] none)]) ∧
    pyParse "Note:\n\x7b\"a\": 1\x7d ok".data =
      .ok (Json.obj [("a".data, Json.num false [1] [] none)]) ∧
    pyParse "no json here".data = .error "no json here".data := by
  obtain ⟨hA, hB, hC, hD⟩ := structured_output_parser_recovery
  refine ⟨?_, ?_, ?_, ?_, ?_⟩
  · exact (hA "\x7b\"a\": 1\x7d".data "\"a\": 1\x7d".data "\x7b\"a\": 1".data
      (Json.obj [("a".data, Json.num false [1] [] none)]) '{' rfl rfl
      (by decide) (by decide) rfl).1
  · exact (hA "\x7b\"a\": 1\x7d".data "\"a\": 1\x7d".data "\x7b\"a\": 1".data
      (Json.obj [("a".data, Json.num false [1] [] none)]) '{' rfl rfl
      (by decide) (by decide) rfl).2
  · exact hB ["Sure:".data] "\x7b\"a\": 1\x7d".data "\x7b\"a\": 1".data
      (Json.obj [("a".data, Json.num false [1] [] none)]) (by simp)
      (fun l hl => by
        simp only [List.mem_singleton] at hl
        subst hl
        exact ⟨'S', "ure:".data, rfl, by decide, by decide, by decide⟩)
      rfl rfl
  · exact hC ["Note:".data] "\"a\": 1".data " o".data 'k'
      (Json.obj [("a".data, Json.num false [1] [] none)])
      (fun l hl => by
        simp only [List.mem_singleton] at hl
        subst hl
        exact ⟨'N', "ote:".data, rfl, by decide, by decide, by decide, by decide⟩)
      (by decide) (by decide) (by decide) rfl (by decide) (by decide) (by decide) rfl
  · exact hD "no json here".data rfl rfl rfl

/-- C4 counterexample: the explanation and hint call sites do not apply the
multi-strategy recovery.  On a response with prefix prose the
question-generation parser recovers the object, while `generate_explanation`
raises and `generate_hint` falls back to the fixed default instead of the
embedded hint. -/
theorem explanation_hint_sites_lack_recovery :
    pyParse "Here is the JSON:\n\x7b\"explanation\": \"E\"\x7d".data =
      .ok (Json.obj [("explanation".data, Json.str "E".data)]) ∧
    explainParse "Here is the JSON:\n\x7b\"explanation\": \"E\"\x7d".data = .error () ∧
    pyParse "Here is the hint:\n\x7b\"hint\": \"H\"\x7d".data =
      .ok (Json.obj [("hint".data, Json.str "H".data)]) ∧
    hintParse "Here is the hint:\n\x7b\"hint\": \"H\"\x7d".data = Json.str hintDefault :=
  ⟨rfl, rfl, rfl, rfl⟩

/-- C4 (amended): question generation and answer validation share the
multi-strategy recovery algorithm verbatim; explanation generation and hint
generation apply only the fence-strip-plus-direct-parse step, agreeing with
the full parser whenever that direct parse succeeds (hint generation
returning its fixed default whenever the parse fails or the key is
missing), and never applying strategies 2-3. -/
theorem structured_call_sites (raw : List Char) :
    validateAnswerParse raw = pyParse raw ∧
    (∀ v, jsonParse (prepText raw) = some v → pyParse raw = .ok v) ∧
    (jsonParse (prepText raw) = none →
      explainParse raw = .error () ∧ hintParse raw = Json.str hintDefault) ∧
    (∀ kvs e, jsonParse (prepText raw) = some (Json.obj kvs) →
      pyLookup kvs "explanation".data = some e →
      explainParse raw = .ok e ∧ pyParse raw = .ok (Json.obj kvs)) ∧
    (∀ kvs h, jsonParse (prepText raw) = some (Json.obj kvs) →
      pyLookup kvs "hint".data = some h → hintParse raw = h) := by
  refine ⟨rfl, ?_, ?_, ?_, ?_⟩
  · intro v hv
    simp only [pyParse]
    rw [hv]
  · intro hn
    constructor
    · simp only [explainParse]
      rw [hn]
    · simp only [hintParse]
      rw [hn]
  · intro kvs e hv he
    constructor
    · have he' : pyLookup kvs ['e', 'x', 'p', 'l', 'a', 'n', 'a', 't', 'i', 'o', 'n'] =
          some e := he
      simp only [explainParse, hv, he']
    · simp only [pyParse]
      rw [hv]
  · intro kvs h hv hh
    have hh' : pyLookup kvs ['h', 'i', 'n', 't'] = some h := hh
    simp only [hintParse, hv, hh', Option.getD_some]

/-- Witness for `structured_call_sites`: on a direct-parse response all
sites agree, and on an unparseable response the explanation site fails
while the hint site yields the fixed default. -/
theorem structured_call_sites_witness :
    pyParse "\x7b\"explanation\": \"E\"\x7d".data =
      .ok (Json.obj [("explanation".data, Json.str "E".data)]) ∧
    explainParse "\x7b\"explanation\": \"E\"\x7d".data = .ok (Json.str "E".data) ∧
    hintParse "\x7b\"hint\": \"H\"\x7d".data = Json.str "H".data ∧
    explainParse "oops".data = .error () ∧
    hintParse "oops".data = Json.str hintDefault := by
  refine ⟨?_, ?_, ?_, ?_, ?_⟩
  · exact (structured_call_sites "\x7b\"explanation\": \"E\"\x7d".data).2.1
      (Json.obj [("explanation".data, Json.str "E".data)]) rfl
  · exact ((structured_call_sites "\x7b\"explanation\": \"E\"\x7d".data).2.2.2.1
      [("explanation".data, Json.str "E".data)] (Json.str "E".data) rfl rfl).1
  · exact (structured_call_sites "\x7b\"hint\": \"H\"\x7d".data).2.2.2.2
      [("hint".data, Json.str "H".data)] (Json.str "H".data) rfl rfl
  · exact ((structured_call_sites "oops".data).2.2.1 rfl).1
  · exact ((structured_call_sites "oops".data).2.2.1 rfl).2

end TutorQuest
